import Mathlib

/-!
Shallow embedding of the wallet-ledger subsystem of TradeBridge-MVP
(`src/backend/routes/wallet.js`): the data model (users, wallets,
transactions, notifications), the two mutating operations
(`POST /transactions` and `POST /transfer`), the read-only aggregation
(`GET /stats`), and an interleaved small-step model of the debit handler
used to analyse the check-then-act sequence of lines 146-200.

Monetary values (JS numbers in the source, described as fixed-point
decimals by the documentation) are modelled as `Int`; every operation the
routes perform on them is an ordered-ring operation, so the embedding is
faithful on all inputs the claims mention.
-/

namespace TradeBridge

/-- The closed set of transaction kinds accepted by
`createTransactionSchema` (`wallet.js` line 10): `credit`, `debit`,
`transfer`, `payment`. The source calls this field `type`. -/
inductive TxKind where
  | credit
  | debit
  | transfer
  | payment
deriving DecidableEq, Repr

/-- Values stored in the `status` column of `transactions`. -/
inductive TxStatus where
  | pending
  | completed
  | failed
deriving DecidableEq, Repr

/-- A row of the `transactions` table.  `initialStatus` records the status
value bound in the `INSERT` statement that created the row (`'pending'` at
line 179, `'completed'` at lines 318 and 330); it is never changed
afterwards, so it witnesses how the row was created.  `createdAt` is the
monotone insertion sequence number, standing for the `created_at`
timestamp column. -/
structure Txn where
  id : Nat
  walletId : Nat
  userId : Nat
  type : TxKind
  amount : Int
  currency : String
  description : Option String
  reference : Option String
  status : TxStatus
  initialStatus : TxStatus
  createdAt : Nat
deriving DecidableEq, Repr

/-- A row of the `wallets` table. -/
structure Wallet where
  id : Nat
  userId : Nat
  currency : String
  balance : Int
  frozenBalance : Int
deriving DecidableEq, Repr

/-- The slice of a `users` row that the transfer route reads
(`wallet.js` line 285). -/
structure User where
  id : Nat
  email : String
  isActive : Bool
deriving DecidableEq, Repr

/-- A row of the `notifications` table (only the fields the ledger
writes that matter to its own behaviour). -/
structure Note where
  userId : Nat
  title : String
deriving DecidableEq, Repr

/-- The database state seen by the wallet routes.  `nextTx` is the next
transaction row id (and insertion sequence number); `nextUuid` feeds the
`uuidv4()` calls, modelled as a counter. -/
structure DB where
  users : List User
  wallets : List Wallet
  txns : List Txn
  notes : List Note
  nextTx : Nat
  nextUuid : Nat
deriving DecidableEq, Repr

/-- `SELECT * FROM wallets WHERE user_id = ?` (lines 146, 261, 297):
the single wallet of a user, looked up by user id alone. -/
def DB.getWalletByUser (db : DB) (uid : Nat) : Option Wallet :=
  db.wallets.find? (fun w => w.userId == uid)

/-- `SELECT ... FROM users WHERE email = ? AND is_active = 1`
(line 285). -/
def DB.findRecipient (db : DB) (email : String) : Option User :=
  db.users.find? (fun u => u.email == email && u.isActive)

/-- `UPDATE wallets SET balance = ? WHERE id = ?`
(lines 191-194, 336-339, 342-345). -/
def DB.setBalance (db : DB) (wid : Nat) (b : Int) : DB :=
  { db with wallets :=
      db.wallets.map (fun w => if w.id == wid then { w with balance := b } else w) }

/-- `UPDATE transactions SET status = 'completed' WHERE id = ?`
(lines 197-200). -/
def DB.completeTxn (db : DB) (tid : Nat) : DB :=
  { db with txns :=
      db.txns.map (fun t => if t.id == tid then { t with status := TxStatus.completed } else t) }

/-- `INSERT INTO transactions ... VALUES (...)` (lines 173-181, 312-321,
324-333): appends a fresh row and advances the id counter. -/
def DB.insertTxn (db : DB) (wid uid : Nat) (k : TxKind) (amount : Int)
    (currency : String) (descr : Option String) (ref : Option String)
    (st : TxStatus) : Txn × DB :=
  let t : Txn :=
    { id := db.nextTx, walletId := wid, userId := uid, type := k,
      amount := amount, currency := currency, description := descr,
      reference := ref, status := st, initialStatus := st,
      createdAt := db.nextTx }
  (t, { db with txns := db.txns ++ [t], nextTx := db.nextTx + 1 })

/-- `INSERT INTO notifications ...` (lines 209-218, 348-357, 359-368). -/
def DB.notify (db : DB) (uid : Nat) (title : String) : DB :=
  { db with notes := db.notes ++ [⟨uid, title⟩] }

/-- The typed errors the two mutating routes return before doing any
write (HTTP code and `code` field in the source). -/
inductive LedgerError where
  | validationError
  | walletNotFound
  | insufficientBalance (availableBalance : Int)
  | senderWalletNotFound
  | recipientNotFound
  | recipientWalletNotFound
deriving DecidableEq, Repr

/-- `Joi.string().valid('credit', 'debit', 'transfer', 'payment')`
(line 10). -/
def parseKind : String → Option TxKind
  | "credit" => some TxKind.credit
  | "debit" => some TxKind.debit
  | "transfer" => some TxKind.transfer
  | "payment" => some TxKind.payment
  | _ => none

/-- Length bound on an optional string field (Joi `.max(n)`). -/
def okLen (o : Option String) (n : Nat) : Bool :=
  match o with
  | some s => s.length ≤ n
  | none => true

/-- The request body of `POST /transactions` before validation. -/
structure RawTxReq where
  type : String
  amount : Int
  currency : Option String
  description : Option String
  reference : Option String
deriving DecidableEq, Repr

/-- The validated value produced by `createTransactionSchema.validate`
(line 135): currency defaulted to `'USD'`. -/
structure ValidTx where
  type : TxKind
  amount : Int
  currency : String
  description : Option String
  reference : Option String
deriving DecidableEq, Repr

/-- `createTransactionSchema.validate(req.body)` (lines 9-16, 135):
kind in the closed set, `amount` positive, currency of length 3
(default `'USD'`), bounded description and reference. -/
def validateTx (r : RawTxReq) : Option ValidTx :=
  match parseKind r.type with
  | none => none
  | some k =>
    if decide (0 < r.amount) && (r.currency.getD "USD").length == 3
        && okLen r.description 200 && okLen r.reference 100 then
      some ⟨k, r.amount, r.currency.getD "USD", r.description, r.reference⟩
    else none

/-- `type === 'debit' || type === 'transfer' || type === 'payment'`
(lines 159 and 187). -/
def isDebitLike : TxKind → Bool
  | TxKind.debit => true
  | TxKind.transfer => true
  | TxKind.payment => true
  | TxKind.credit => false

/-- Lines 184-189: `newBalance` starts from the stored balance, adds the
amount for `credit`, subtracts it for `debit`, `transfer` and
`payment`. -/
def newBalanceFor (k : TxKind) (bal amount : Int) : Int :=
  if k == TxKind.credit then bal + amount
  else if isDebitLike k then bal - amount
  else bal

/-- `POST /transactions` (lines 132-244).  Returns the created (and
re-read, line 203) transaction row, the reported `newBalance`, and the
new database state; or the typed error, in which case the handler
returned before performing any write. -/
def recordTransaction (uid : Nat) (r : RawTxReq) (db : DB) :
    Except LedgerError (Txn × Int × DB) :=
  match validateTx r with
  | none => Except.error LedgerError.validationError
  | some v =>
    match db.getWalletByUser uid with
    | none => Except.error LedgerError.walletNotFound
    | some wallet =>
      let availableBalance := wallet.balance - wallet.frozenBalance
      if isDebitLike v.type && decide (availableBalance < v.amount) then
        Except.error (LedgerError.insufficientBalance availableBalance)
      else
        let ins := db.insertTxn wallet.id uid v.type v.amount v.currency
          v.description v.reference TxStatus.pending
        let newBalance := newBalanceFor v.type wallet.balance v.amount
        let db2 := ins.2.setBalance wallet.id newBalance
        let db3 := db2.completeTxn ins.1.id
        let db4 := db3.notify uid "Transaction Completed"
        -- line 203 re-reads the freshly inserted row after the status
        -- update; with a fresh id this is the row updated by completeTxn
        Except.ok ({ ins.1 with status := TxStatus.completed }, newBalance, db4)

/-- The request body of `POST /transfer` before validation. -/
structure RawTransferReq where
  recipientEmail : String
  amount : Int
  currency : Option String
  description : Option String
deriving DecidableEq, Repr

/-- The validated value produced by `transferSchema.validate`
(lines 18-23, 250). -/
structure ValidTransfer where
  recipientEmail : String
  amount : Int
  currency : String
  description : Option String
deriving DecidableEq, Repr

/-- `transferSchema.validate(req.body)` (lines 18-23, 250).  Joi's
`.email()` grammar is abstracted to the necessary condition of
containing an `@`; no claim depends on the finer grammar. -/
def validateTransfer (r : RawTransferReq) : Option ValidTransfer :=
  if r.recipientEmail.data.any (fun c => c == '@') && decide (0 < r.amount)
      && (r.currency.getD "USD").length == 3 && okLen r.description 200 then
    some ⟨r.recipientEmail, r.amount, r.currency.getD "USD", r.description⟩
  else none

/-- `uuidv4()` modelled as a fresh value from the `nextUuid` counter. -/
def mkUuid (n : Nat) : String := "uuid-" ++ toString n

/-- The response body of a completed transfer (lines 370-381). -/
structure TransferResult where
  uuid : String
  amount : Int
  currency : String
  recipientEmail : String
  newBalance : Int
deriving DecidableEq, Repr

/-- `POST /transfer` (lines 247-390), step for step: validate; read the
sender's wallet; check the sender's available balance; resolve the
recipient among active users; read the recipient's wallet; insert the two
legs (both with status `'completed'`, sharing `transferUuid` as
`reference`); write the sender's balance from the pre-read value; write
the recipient's balance from the pre-read value; insert two
notifications. -/
def transferFunds (uid : Nat) (senderEmail : String) (r : RawTransferReq)
    (db : DB) : Except LedgerError (TransferResult × DB) :=
  match validateTransfer r with
  | none => Except.error LedgerError.validationError
  | some v =>
    match db.getWalletByUser uid with
    | none => Except.error LedgerError.senderWalletNotFound
    | some senderWallet =>
      let availableBalance := senderWallet.balance - senderWallet.frozenBalance
      if decide (availableBalance < v.amount) then
        Except.error (LedgerError.insufficientBalance availableBalance)
      else
        match db.findRecipient v.recipientEmail with
        | none => Except.error LedgerError.recipientNotFound
        | some recipient =>
          match db.getWalletByUser recipient.id with
          | none => Except.error LedgerError.recipientWalletNotFound
          | some recipientWallet =>
            let transferUuid := mkUuid db.nextUuid
            let db0 := { db with nextUuid := db.nextUuid + 1 }
            let ins1 := db0.insertTxn senderWallet.id uid TxKind.transfer
              v.amount v.currency (some ("Transfer to " ++ v.recipientEmail))
              (some transferUuid) TxStatus.completed
            let ins2 := ins1.2.insertTxn recipientWallet.id recipient.id
              TxKind.credit v.amount v.currency
              (some ("Transfer from " ++ senderEmail))
              (some transferUuid) TxStatus.completed
            let db3 := ins2.2.setBalance senderWallet.id
              (senderWallet.balance - v.amount)
            let db4 := db3.setBalance recipientWallet.id
              (recipientWallet.balance + v.amount)
            let db5 := (db4.notify uid "Transfer Sent").notify recipient.id
              "Transfer Received"
            Except.ok
              (⟨transferUuid, v.amount, v.currency, v.recipientEmail,
                senderWallet.balance - v.amount⟩, db5)

/-- One ledger operation as dispatched by the router. -/
inductive Op where
  | record (uid : Nat) (r : RawTxReq)
  | xfer (uid : Nat) (senderEmail : String) (r : RawTransferReq)
deriving DecidableEq, Repr

/-- Sequential execution of one operation: on an error the handler has
returned before any write, so the state is unchanged. -/
def applyOp (db : DB) : Op → DB
  | Op.record uid r =>
    match recordTransaction uid r db with
    | Except.ok p => p.2.2
    | Except.error _ => db
  | Op.xfer uid se r =>
    match transferFunds uid se r db with
    | Except.ok p => p.2
    | Except.error _ => db

/-- Sequential execution of a list of operations. -/
def runOps (db : DB) (ops : List Op) : DB := ops.foldl applyOp db

/-- Structural well-formedness of a database state: wallet row ids are
unique (primary key), and every transaction row id is below the id
counter (autoincrement). -/
def WF (db : DB) : Prop :=
  (db.wallets.map Wallet.id).Nodup ∧ ∀ t ∈ db.txns, t.id < db.nextTx

instance (db : DB) : Decidable (WF db) := by
  unfold WF; infer_instance

/-- The balance invariant of the specification:
`availableBalance = balance - frozenBalance ≥ 0` on every wallet. -/
def Inv (db : DB) : Prop :=
  ∀ w ∈ db.wallets, 0 ≤ w.balance - w.frozenBalance

instance (db : DB) : Decidable (Inv db) := by
  unfold Inv; infer_instance

/-- The stored balance of the wallet row with the given id. -/
def balanceOf (db : DB) (wid : Nat) : Option Int :=
  (db.wallets.find? (fun w => w.id == wid)).map Wallet.balance

instance {ε α : Type} [DecidableEq ε] [DecidableEq α] : DecidableEq (Except ε α) :=
  fun x y =>
    match x, y with
    | Except.ok a, Except.ok b =>
      if h : a = b then isTrue (by rw [h]) else isFalse (fun hh => by cases hh; exact h rfl)
    | Except.error a, Except.error b =>
      if h : a = b then isTrue (by rw [h]) else isFalse (fun hh => by cases hh; exact h rfl)
    | Except.ok _, Except.error _ => isFalse (fun hh => by cases hh)
    | Except.error _, Except.ok _ => isFalse (fun hh => by cases hh)

/-- One `GROUP BY type` row of the stats query (line 453): `COUNT(*)`
and `SUM(amount)`. -/
structure KindAgg where
  count : Nat
  total : Int
deriving DecidableEq, Repr

/-- `SELECT type, COUNT(*) as count, SUM(amount) as total FROM
transactions WHERE ... GROUP BY type` (lines 452-457), as a scan of the
row list: `none` when the group is empty (`GROUP BY` emits no row). -/
def aggregate : List Txn → TxKind → Option KindAgg
  | [], _ => none
  | t :: l, k =>
    let rest := aggregate l k
    if t.type == k then
      match rest with
      | none => some ⟨1, t.amount⟩
      | some a => some ⟨a.count + 1, a.total + t.amount⟩
    else rest

/-- `SUM(amount)` over a row list. -/
def sumAmounts (l : List Txn) : Int := (l.map Txn.amount).sum

/-- The four kinds a `GROUP BY type` result can mention. -/
def statKinds : List TxKind :=
  [TxKind.credit, TxKind.debit, TxKind.transfer, TxKind.payment]

/-- `transactionStats.reduce((sum, stat) => sum + stat.count, 0)`
(line 475): total of the per-kind counts, absent groups contributing
nothing. -/
def totalOf (m : TxKind → Option KindAgg) : Nat :=
  statKinds.foldl
    (fun s k => s + match m k with | some a => a.count | none => 0) 0

/-- The rows of the user's transactions in table order
(`WHERE user_id = ?`). -/
def userTxns (db : DB) (uid : Nat) : List Txn :=
  db.txns.filter (fun t => t.userId == uid)

/-- The user's rows with `status = 'completed'` (line 454). -/
def completedTxns (db : DB) (uid : Nat) : List Txn :=
  db.txns.filter (fun t => t.userId == uid && t.status == TxStatus.completed)

/-- The order `ORDER BY created_at DESC` sorts by: `a` may come before
`b` when `b.createdAt ≤ a.createdAt`. -/
def recentLE (a b : Txn) : Prop := b.createdAt ≤ a.createdAt

instance : DecidableRel recentLE := fun _ _ => Nat.decLe _ _

instance : IsTotal Txn recentLE :=
  ⟨fun a b => Or.symm (Nat.le_total a.createdAt b.createdAt)⟩

instance : IsTrans Txn recentLE :=
  ⟨fun _ _ _ h1 h2 => Nat.le_trans h2 h1⟩

/-- The payload of the `GET /stats` response (lines 467-491). -/
structure StatsView where
  balance : Int
  frozenBalance : Int
  availableBalance : Int
  currency : String
  totalTransactions : Nat
  perKind : TxKind → Option KindAgg
  recent : List Txn

/-- `GET /stats` (lines 437-500): wallet fields, per-kind aggregates over
completed rows, their total, and the five most recent transactions
(`ORDER BY created_at DESC LIMIT 5`, line 463).  The handler runs only
`SELECT` statements, so it takes the state and returns none. -/
def getStats (uid : Nat) (db : DB) : Except LedgerError StatsView :=
  match db.getWalletByUser uid with
  | none => Except.error LedgerError.walletNotFound
  | some wallet =>
    let m := aggregate (completedTxns db uid)
    Except.ok
      { balance := wallet.balance, frozenBalance := wallet.frozenBalance,
        availableBalance := wallet.balance - wallet.frozenBalance,
        currency := wallet.currency,
        totalTransactions := totalOf m,
        perKind := m,
        recent := ((userTxns db uid).insertionSort recentLE).take 5 }

/-- The control point a debit-shaped `POST /transactions` call is
suspended at: the handler awaits the store at each query, so between two
consecutive phases other requests may run (lines 146-218).  The balance
check (line 161) is synchronous after the wallet read resolves, so read
and check form one phase. -/
inductive DebitPhase where
  | start
  | passed (w : Wallet)
  | pend (w : Wallet) (tid : Nat)
  | written (w : Wallet) (tid : Nat)
  | ok
  | noWallet
  | insufficient (availableBalance : Int)
deriving DecidableEq, Repr

/-- One awaited step of `POST /transactions` for a debit of `amount`:
read wallet and check available balance; insert the pending row; write
the balance computed from the wallet value read in the first phase; mark
the row completed and notify.  Terminal phases step to themselves. -/
def debitStep (uid : Nat) (amount : Int) : DebitPhase → DB → DebitPhase × DB
  | DebitPhase.start, db =>
    match db.getWalletByUser uid with
    | none => (DebitPhase.noWallet, db)
    | some w =>
      if decide (w.balance - w.frozenBalance < amount) then
        (DebitPhase.insufficient (w.balance - w.frozenBalance), db)
      else (DebitPhase.passed w, db)
  | DebitPhase.passed w, db =>
    let ins := db.insertTxn w.id uid TxKind.debit amount "USD" none none
      TxStatus.pending
    (DebitPhase.pend w ins.1.id, ins.2)
  | DebitPhase.pend w tid, db =>
    (DebitPhase.written w tid, db.setBalance w.id (w.balance - amount))
  | DebitPhase.written _w tid, db =>
    (DebitPhase.ok, (db.completeTxn tid).notify uid "Transaction Completed")
  | p, db => (p, db)

/-- Two in-flight debit requests (threads `a` and `b`) over one shared
database. -/
structure RaceState where
  a : DebitPhase
  b : DebitPhase
  db : DB
deriving DecidableEq, Repr

/-- Run one awaited step of thread `b` (pick `true`) or thread `a`
(pick `false`). -/
def raceStep (uid : Nat) (amount : Int) (s : RaceState) (pick : Bool) : RaceState :=
  if pick then
    let r := debitStep uid amount s.b s.db
    { s with b := r.1, db := r.2 }
  else
    let r := debitStep uid amount s.a s.db
    { s with a := r.1, db := r.2 }

/-- Interleave the two threads under a schedule. -/
def runRace (uid : Nat) (amount : Int) (sched : List Bool) (s : RaceState) :
    RaceState :=
  sched.foldl (raceStep uid amount) s

/-! ### Concrete states used to exercise the model -/

/-- Two active users with provisioned wallets. -/
def demoDB : DB :=
  { users := [⟨7, "alice@x.com", true⟩, ⟨8, "bob@x.com", true⟩],
    wallets := [⟨1, 7, "USD", 1000, 0⟩, ⟨2, 8, "USD", 200, 0⟩],
    txns := [], notes := [], nextTx := 1, nextUuid := 1 }

/-- A credit, a rejected oversized debit, and a transfer. -/
def demoOps : List Op :=
  [Op.record 7 ⟨"credit", 500, none, none, none⟩,
   Op.record 7 ⟨"debit", 2000, none, none, none⟩,
   Op.xfer 7 "alice@x.com" ⟨"bob@x.com", 300, none, none⟩]

/-- The wallet of the concurrency scenario: balance 1000, nothing
frozen. -/
def raceDB : DB :=
  { users := [⟨7, "alice@x.com", true⟩],
    wallets := [⟨1, 7, "USD", 1000, 0⟩],
    txns := [], notes := [], nextTx := 1, nextUuid := 1 }

/-- Both requests pass the balance check before either writes: thread
`a` reads and checks, thread `b` reads and checks, then each finishes its
remaining three steps. -/
def raceSched : List Bool :=
  [false, true, false, false, false, true, true, true]

/-- The final state of two interleaved `recordTransaction(debit, 600)`
calls against `raceDB`. -/
def raceResult : RaceState :=
  runRace 7 600 raceSched ⟨DebitPhase.start, DebitPhase.start, raceDB⟩

/-- A minimal single-user state. -/
def tinyDB : DB :=
  { users := [⟨7, "a@x.com", true⟩],
    wallets := [⟨1, 7, "USD", 5, 0⟩],
    txns := [], notes := [], nextTx := 1, nextUuid := 1 }

/-- A state with two completed transactions, for exercising the stats
aggregation. -/
def statsDB : DB :=
  { users := [⟨7, "alice@x.com", true⟩],
    wallets := [⟨1, 7, "USD", 1200, 100⟩],
    txns := [
      { id := 1, walletId := 1, userId := 7, type := TxKind.credit,
        amount := 500, currency := "USD", description := none,
        reference := none, status := TxStatus.completed,
        initialStatus := TxStatus.pending, createdAt := 1 },
      { id := 2, walletId := 1, userId := 7, type := TxKind.debit,
        amount := 300, currency := "USD", description := none,
        reference := none, status := TxStatus.completed,
        initialStatus := TxStatus.pending, createdAt := 2 }],
    notes := [], nextTx := 3, nextUuid := 1 }

/-- Replaces every wallet's stored currency according to its id, leaving
all other state untouched: the mutating routes never read the wallet's
currency, which is expressed as invariance under this relabelling. -/
def relabelW (f : Nat → String) (db : DB) : DB :=
  { db with wallets := db.wallets.map (fun w => { w with currency := f w.id }) }

/-! ### Projection lemmas for the database combinators -/

@[simp] theorem wallets_insertTxn (db : DB) (wid uid : Nat) (k : TxKind)
    (a : Int) (c : String) (d ref : Option String) (st : TxStatus) :
    (db.insertTxn wid uid k a c d ref st).2.wallets = db.wallets := rfl

@[simp] theorem users_insertTxn (db : DB) (wid uid : Nat) (k : TxKind)
    (a : Int) (c : String) (d ref : Option String) (st : TxStatus) :
    (db.insertTxn wid uid k a c d ref st).2.users = db.users := rfl

@[simp] theorem txns_insertTxn (db : DB) (wid uid : Nat) (k : TxKind)
    (a : Int) (c : String) (d ref : Option String) (st : TxStatus) :
    (db.insertTxn wid uid k a c d ref st).2.txns
      = db.txns ++ [(db.insertTxn wid uid k a c d ref st).1] := rfl

@[simp] theorem nextTx_insertTxn (db : DB) (wid uid : Nat) (k : TxKind)
    (a : Int) (c : String) (d ref : Option String) (st : TxStatus) :
    (db.insertTxn wid uid k a c d ref st).2.nextTx = db.nextTx + 1 := rfl

@[simp] theorem wallets_setBalance (db : DB) (wid : Nat) (b : Int) :
    (db.setBalance wid b).wallets
      = db.wallets.map (fun w => if w.id == wid then { w with balance := b } else w) := rfl

@[simp] theorem txns_setBalance (db : DB) (wid : Nat) (b : Int) :
    (db.setBalance wid b).txns = db.txns := rfl

@[simp] theorem users_setBalance (db : DB) (wid : Nat) (b : Int) :
    (db.setBalance wid b).users = db.users := rfl

@[simp] theorem nextTx_setBalance (db : DB) (wid : Nat) (b : Int) :
    (db.setBalance wid b).nextTx = db.nextTx := rfl

@[simp] theorem wallets_completeTxn (db : DB) (tid : Nat) :
    (db.completeTxn tid).wallets = db.wallets := rfl

@[simp] theorem txns_completeTxn (db : DB) (tid : Nat) :
    (db.completeTxn tid).txns
      = db.txns.map (fun t => if t.id == tid then { t with status := TxStatus.completed } else t) := rfl

@[simp] theorem nextTx_completeTxn (db : DB) (tid : Nat) :
    (db.completeTxn tid).nextTx = db.nextTx := rfl

@[simp] theorem wallets_notify (db : DB) (uid : Nat) (t : String) :
    (db.notify uid t).wallets = db.wallets := rfl

@[simp] theorem txns_notify (db : DB) (uid : Nat) (t : String) :
    (db.notify uid t).txns = db.txns := rfl

@[simp] theorem users_notify (db : DB) (uid : Nat) (t : String) :
    (db.notify uid t).users = db.users := rfl

@[simp] theorem nextTx_notify (db : DB) (uid : Nat) (t : String) :
    (db.notify uid t).nextTx = db.nextTx := rfl

/-! ### Validation facts -/

theorem validateTx_pos {r : RawTxReq} {v : ValidTx}
    (h : validateTx r = some v) : 0 < v.amount := by
  unfold validateTx at h
  split at h
  · exact absurd h (by simp)
  · split at h
    · rename_i hcond
      cases h
      simp only [Bool.and_eq_true, decide_eq_true_eq] at hcond
      exact hcond.1.1.1
    · exact absurd h (by simp)

theorem validateTransfer_pos {r : RawTransferReq} {v : ValidTransfer}
    (h : validateTransfer r = some v) : 0 < v.amount := by
  unfold validateTransfer at h
  split at h
  · rename_i hcond
    cases h
    simp only [Bool.and_eq_true, decide_eq_true_eq] at hcond
    exact hcond.1.1.2
  · exact absurd h (by simp)

/-! ### Wallet lookup facts -/

theorem getWalletByUser_mem {db : DB} {uid : Nat} {w : Wallet}
    (h : db.getWalletByUser uid = some w) : w ∈ db.wallets :=
  List.mem_of_find?_eq_some h

theorem getWalletByUser_userId {db : DB} {uid : Nat} {w : Wallet}
    (h : db.getWalletByUser uid = some w) : w.userId = uid := by
  have := List.find?_some h
  simpa using this

/-- With unique wallet ids, two wallet rows with equal ids are the same
row. -/
theorem wallet_unique {db : DB} {w1 w2 : Wallet}
    (hn : (db.wallets.map Wallet.id).Nodup)
    (h1 : w1 ∈ db.wallets) (h2 : w2 ∈ db.wallets) (h : w1.id = w2.id) :
    w1 = w2 :=
  List.inj_on_of_nodup_map hn h1 h2 h

/-! ### Shape of the success paths -/

/-- A successful `POST /transactions` run determines the validated value,
the wallet read, the failed guard, and the exact output state: insert
pending, write the balance, mark the fresh row completed, notify. -/
theorem record_ok_shape {uid : Nat} {r : RawTxReq} {db : DB} {t : Txn}
    {nb : Int} {db' : DB}
    (hres : recordTransaction uid r db = Except.ok (t, nb, db')) :
    ∃ v wallet, validateTx r = some v ∧ db.getWalletByUser uid = some wallet ∧
      (isDebitLike v.type && decide (wallet.balance - wallet.frozenBalance < v.amount)) = false ∧
      nb = newBalanceFor v.type wallet.balance v.amount ∧
      db' = ((((db.insertTxn wallet.id uid v.type v.amount v.currency
            v.description v.reference TxStatus.pending).2.setBalance wallet.id nb).completeTxn
            db.nextTx).notify uid "Transaction Completed") ∧
      t = { (db.insertTxn wallet.id uid v.type v.amount v.currency
            v.description v.reference TxStatus.pending).1 with status := TxStatus.completed } := by
  unfold recordTransaction at hres
  split at hres
  · exact absurd hres (by simp)
  · rename_i v hv
    split at hres
    · exact absurd hres (by simp)
    · rename_i wallet hw
      simp only [] at hres
      split at hres
      · exact absurd hres (by simp)
      · rename_i hcond
        injection hres with hres
        injection hres with h1 hres
        injection hres with h2 h3
        refine ⟨v, wallet, hv, hw, by simpa using hcond, h2.symm, ?_, h1.symm⟩
        rw [← h3, ← h2]
        rfl

/-- A successful `POST /transfer` run determines the validated value, the
sender's and recipient's wallet reads, the recipient row, and the exact
output state: two completed legs inserted, the two balance writes from
the pre-read values, two notifications. -/
theorem transfer_ok_shape {uid : Nat} {se : String} {r : RawTransferReq}
    {db : DB} {res : TransferResult} {db' : DB}
    (hres : transferFunds uid se r db = Except.ok (res, db')) :
    ∃ v sw ru rw, validateTransfer r = some v ∧
      db.getWalletByUser uid = some sw ∧
      decide (sw.balance - sw.frozenBalance < v.amount) = false ∧
      db.findRecipient v.recipientEmail = some ru ∧
      db.getWalletByUser ru.id = some rw ∧
      res = ⟨mkUuid db.nextUuid, v.amount, v.currency, v.recipientEmail,
             sw.balance - v.amount⟩ ∧
      db' = ((((({ db with nextUuid := db.nextUuid + 1 }.insertTxn sw.id uid
            TxKind.transfer v.amount v.currency
            (some ("Transfer to " ++ v.recipientEmail))
            (some (mkUuid db.nextUuid)) TxStatus.completed).2.insertTxn rw.id ru.id
            TxKind.credit v.amount v.currency
            (some ("Transfer from " ++ se))
            (some (mkUuid db.nextUuid)) TxStatus.completed).2.setBalance sw.id
            (sw.balance - v.amount)).setBalance rw.id
            (rw.balance + v.amount)).notify uid "Transfer Sent").notify ru.id
            "Transfer Received" := by
  unfold transferFunds at hres
  split at hres
  · exact absurd hres (by simp)
  · rename_i v hv
    split at hres
    · exact absurd hres (by simp)
    · rename_i sw hsw
      simp only [] at hres
      split at hres
      · exact absurd hres (by simp)
      · rename_i hlt
        split at hres
        · exact absurd hres (by simp)
        · rename_i ru hru
          split at hres
          · exact absurd hres (by simp)
          · rename_i rw hrw
            injection hres with hres
            injection hres with h1 h2
            exact ⟨v, sw, ru, rw, hv, hsw, by simpa using hlt, hru, hrw,
              h1.symm, h2.symm⟩

/-! ### Error runs leave the state unchanged -/

theorem applyOp_record_error {uid : Nat} {r : RawTxReq} {db : DB}
    {e : LedgerError} (h : recordTransaction uid r db = Except.error e) :
    applyOp db (Op.record uid r) = db := by
  show (match recordTransaction uid r db with
    | Except.ok p => p.2.2
    | Except.error _ => db) = db
  rw [h]

theorem applyOp_xfer_error {uid : Nat} {se : String} {r : RawTransferReq}
    {db : DB} {e : LedgerError}
    (h : transferFunds uid se r db = Except.error e) :
    applyOp db (Op.xfer uid se r) = db := by
  show (match transferFunds uid se r db with
    | Except.ok p => p.2
    | Except.error _ => db) = db
  rw [h]


theorem applyOp_record_ok {uid : Nat} {r : RawTxReq} {db : DB} {t : Txn}
    {nb : Int} {db' : DB}
    (h : recordTransaction uid r db = Except.ok (t, nb, db')) :
    applyOp db (Op.record uid r) = db' := by
  show (match recordTransaction uid r db with
    | Except.ok p => p.2.2
    | Except.error _ => db) = db'
  rw [h]

theorem applyOp_xfer_ok {uid : Nat} {se : String} {r : RawTransferReq}
    {db : DB} {res : TransferResult} {db' : DB}
    (h : transferFunds uid se r db = Except.ok (res, db')) :
    applyOp db (Op.xfer uid se r) = db' := by
  show (match transferFunds uid se r db with
    | Except.ok p => p.2
    | Except.error _ => db) = db'
  rw [h]

theorem map_id_wallets_upd (l : List Wallet) (wid : Nat) (b : Int) :
    (l.map (fun w => if w.id == wid then { w with balance := b } else w)).map Wallet.id
      = l.map Wallet.id := by
  induction l with
  | nil => rfl
  | cons w l ih =>
    simp only [List.map_cons, ih, List.cons.injEq, and_true]
    cases h : w.id == wid <;> simp [h]

theorem map_id_txns_upd (l : List Txn) (tid : Nat) :
    (l.map (fun t => if t.id == tid then { t with status := TxStatus.completed } else t)).map Txn.id
      = l.map Txn.id := by
  induction l with
  | nil => rfl
  | cons t l ih =>
    simp only [List.map_cons, ih, List.cons.injEq, and_true]
    cases h : t.id == tid <;> simp [h]

theorem newBalanceFor_credit (b a : Int) : newBalanceFor TxKind.credit b a = b + a := rfl

theorem newBalanceFor_debit (b a : Int) : newBalanceFor TxKind.debit b a = b - a := rfl

theorem newBalanceFor_transfer (b a : Int) : newBalanceFor TxKind.transfer b a = b - a := rfl

theorem newBalanceFor_payment (b a : Int) : newBalanceFor TxKind.payment b a = b - a := rfl

theorem inv_wallets_update {l : List Wallet}
    (hinv : ∀ w ∈ l, 0 ≤ w.balance - w.frozenBalance)
    {wid : Nat} {b : Int}
    (hb : ∀ w ∈ l, w.id = wid → 0 ≤ b - w.frozenBalance) :
    ∀ w' ∈ l.map (fun w => if w.id == wid then { w with balance := b } else w),
      0 ≤ w'.balance - w'.frozenBalance := by
  intro w' hw'
  rw [List.mem_map] at hw'
  obtain ⟨w, hw, rfl⟩ := hw'
  cases h : w.id == wid with
  | true => simpa [h] using hb w hw (by simpa using h)
  | false => simpa [h] using hinv w hw

theorem record_preserves {db : DB} {uid : Nat} {r : RawTxReq}
    (hwf : WF db) (hinv : Inv db) :
    WF (applyOp db (Op.record uid r)) ∧ Inv (applyOp db (Op.record uid r)) := by
  cases hres : recordTransaction uid r db with
  | error e => rw [applyOp_record_error hres]; exact ⟨hwf, hinv⟩
  | ok p =>
    obtain ⟨t, nb, db'⟩ := p
    rw [applyOp_record_ok hres]
    obtain ⟨v, wallet, hv, hw, hcond, hnb, hdb', -⟩ := record_ok_shape hres
    have hmem := getWalletByUser_mem hw
    have hpos := validateTx_pos hv
    subst hdb'
    constructor
    · constructor
      · simp only [wallets_notify, wallets_completeTxn, wallets_setBalance,
          wallets_insertTxn]
        rw [map_id_wallets_upd]
        exact hwf.1
      · intro t' ht'
        simp only [txns_notify, txns_completeTxn, txns_setBalance, txns_insertTxn,
          List.mem_map, List.mem_append, List.mem_singleton,
          nextTx_notify, nextTx_completeTxn, nextTx_setBalance, nextTx_insertTxn] at ht' ⊢
        obtain ⟨t0, ht0, rfl⟩ := ht'
        have hid : (if t0.id == db.nextTx then { t0 with status := TxStatus.completed } else t0).id = t0.id := by
          cases h : t0.id == db.nextTx <;> simp [h]
        rw [hid]
        rcases ht0 with h | h
        · exact Nat.lt_succ_of_lt (hwf.2 t0 h)
        · subst h; exact Nat.lt_succ_self _
    · intro w' hw'
      simp only [wallets_notify, wallets_completeTxn, wallets_setBalance,
        wallets_insertTxn] at hw'
      refine inv_wallets_update hinv ?_ w' hw'
      intro w hwmem hid
      have heqw : w = wallet := wallet_unique hwf.1 hwmem hmem hid
      subst heqw
      subst hnb
      have hiw := hinv w hwmem
      cases hk : v.type with
      | credit =>
        rw [newBalanceFor_credit]
        omega
      | debit =>
        rw [hk] at hcond
        simp only [isDebitLike, Bool.true_and, decide_eq_false_iff_not, not_lt] at hcond
        rw [newBalanceFor_debit]
        omega
      | transfer =>
        rw [hk] at hcond
        simp only [isDebitLike, Bool.true_and, decide_eq_false_iff_not, not_lt] at hcond
        rw [newBalanceFor_transfer]
        omega
      | payment =>
        rw [hk] at hcond
        simp only [isDebitLike, Bool.true_and, decide_eq_false_iff_not, not_lt] at hcond
        rw [newBalanceFor_payment]
        omega

@[simp] theorem id_insertTxn (db : DB) (wid uid : Nat) (k : TxKind)
    (a : Int) (c : String) (d ref : Option String) (st : TxStatus) :
    (db.insertTxn wid uid k a c d ref st).1.id = db.nextTx := rfl

theorem frozen_upd (w : Wallet) (wid : Nat) (b : Int) :
    (if w.id == wid then { w with balance := b } else w).frozenBalance
      = w.frozenBalance := by
  cases h : w.id == wid <;> simp [h]

theorem id_upd (w : Wallet) (wid : Nat) (b : Int) :
    (if w.id == wid then { w with balance := b } else w).id = w.id := by
  cases h : w.id == wid <;> simp [h]

theorem xfer_preserves {db : DB} {uid : Nat} {se : String} {r : RawTransferReq}
    (hwf : WF db) (hinv : Inv db) :
    WF (applyOp db (Op.xfer uid se r)) ∧ Inv (applyOp db (Op.xfer uid se r)) := by
  cases hres : transferFunds uid se r db with
  | error e => rw [applyOp_xfer_error hres]; exact ⟨hwf, hinv⟩
  | ok p =>
    obtain ⟨res, db2⟩ := p
    rw [applyOp_xfer_ok hres]
    obtain ⟨v, sw, ru, rcw, hv, hsw, hlt, hru, hrw, -, hdb'⟩ := transfer_ok_shape hres
    have hswm := getWalletByUser_mem hsw
    have hrwm := getWalletByUser_mem hrw
    have hpos := validateTransfer_pos hv
    have hle : v.amount ≤ sw.balance - sw.frozenBalance := by
      simpa [decide_eq_false_iff_not, not_lt] using hlt
    subst hdb'
    constructor
    · constructor
      · simp only [wallets_notify, wallets_setBalance, wallets_insertTxn]
        rw [map_id_wallets_upd, map_id_wallets_upd]
        exact hwf.1
      · intro t' ht'
        simp only [txns_notify, txns_setBalance, txns_insertTxn,
          nextTx_notify, nextTx_setBalance, nextTx_insertTxn,
          List.mem_append, List.mem_singleton] at ht' ⊢
        rcases ht' with (h | h) | h
        · have := hwf.2 t' h
          omega
        · subst h
          simp only [id_insertTxn]
          omega
        · subst h
          simp only [id_insertTxn, nextTx_insertTxn]
          omega
    · intro w' hw'
      simp only [wallets_notify, wallets_setBalance, wallets_insertTxn] at hw'
      refine inv_wallets_update ?_ ?_ w' hw'
      · refine inv_wallets_update hinv ?_
        intro w hwm hid
        have : w = sw := wallet_unique hwf.1 hwm hswm hid
        subst this
        omega
      · intro w hwm hid
        rw [List.mem_map] at hwm
        obtain ⟨w0, hw0, rfl⟩ := hwm
        rw [id_upd] at hid
        have heq0 : w0 = rcw := wallet_unique hwf.1 hw0 hrwm hid
        subst heq0
        rw [frozen_upd]
        have := hinv w0 hw0
        omega

theorem op_preserves (db : DB) (op : Op) (hwf : WF db) (hinv : Inv db) :
    WF (applyOp db op) ∧ Inv (applyOp db op) := by
  cases op with
  | record uid r => exact record_preserves hwf hinv
  | xfer uid se r => exact xfer_preserves hwf hinv

theorem runOps_preserves (ops : List Op) (db : DB) (hwf : WF db) (hinv : Inv db) :
    WF (runOps db ops) ∧ Inv (runOps db ops) := by
  induction ops generalizing db with
  | nil => exact ⟨hwf, hinv⟩
  | cons op ops ih =>
    have h := op_preserves db op hwf hinv
    exact ih (applyOp db op) h.1 h.2

theorem completeTxn_map_fresh {l : List Txn} {tid : Nat}
    (h : ∀ t ∈ l, t.id ≠ tid) :
    l.map (fun t => if t.id == tid then { t with status := TxStatus.completed } else t) = l := by
  induction l with
  | nil => rfl
  | cons t l ih =>
    have ht : (t.id == tid) = false := by
      simpa using h t (List.mem_cons_self t l)
    simp only [List.map_cons, ht, Bool.false_eq_true, if_false,
      ih (fun t' ht' => h t' (List.mem_cons_of_mem t ht'))]

/-- C1: starting from well-formed wallets satisfying the invariant, every
sequence of sequentially executed `recordTransaction` / `transferFunds`
operations leaves every wallet with
`availableBalance = balance - frozenBalance ≥ 0` after each committed
operation (each prefix of the sequence is itself such a sequence). -/
theorem claim_c1_balance_invariant (db : DB) (ops : List Op)
    (hwf : WF db) (hinv : Inv db) : Inv (runOps db ops) :=
  (runOps_preserves ops db hwf hinv).2

theorem claim_c1_witness :
    WF demoDB ∧ Inv demoDB ∧ Inv (runOps demoDB demoOps) :=
  ⟨by decide, by decide, claim_c1_balance_invariant demoDB demoOps (by decide) (by decide)⟩

/-- C4: a `recordTransaction` call of debit-like kind whose amount
exceeds the available balance fails with `InsufficientBalance` carrying
the current available balance, and the state is unchanged. -/
theorem claim_c4_insufficient_balance (uid : Nat) (r : RawTxReq) (db : DB)
    (v : ValidTx) (wallet : Wallet)
    (hv : validateTx r = some v) (hd : isDebitLike v.type = true)
    (hw : db.getWalletByUser uid = some wallet)
    (hgt : wallet.balance - wallet.frozenBalance < v.amount) :
    recordTransaction uid r db
      = Except.error (LedgerError.insufficientBalance (wallet.balance - wallet.frozenBalance))
    ∧ applyOp db (Op.record uid r) = db := by
  have herr : recordTransaction uid r db
      = Except.error (LedgerError.insufficientBalance (wallet.balance - wallet.frozenBalance)) := by
    unfold recordTransaction
    rw [hv, hw]
    simp only []
    rw [if_pos]
    simp [hd, hgt]
  exact ⟨herr, applyOp_record_error herr⟩

theorem claim_c4_witness :
    recordTransaction 7 ⟨"debit", 2000, none, none, none⟩ demoDB
      = Except.error (LedgerError.insufficientBalance 1000) := by
  have h := claim_c4_insufficient_balance 7 ⟨"debit", 2000, none, none, none⟩ demoDB
    ⟨TxKind.debit, 2000, "USD", none, none⟩ ⟨1, 7, "USD", 1000, 0⟩
    (by decide) (by decide) (by decide) (by decide)
  exact h.1

/-- C5: a `recordTransaction` call with non-positive amount, a kind
outside the closed set, or a malformed currency code fails with
`ValidationError` and the state is unchanged. -/
theorem claim_c5_validation_error (uid : Nat) (r : RawTxReq) (db : DB)
    (h : r.amount ≤ 0 ∨ parseKind r.type = none ∨ (r.currency.getD "USD").length ≠ 3) :
    recordTransaction uid r db = Except.error LedgerError.validationError
    ∧ applyOp db (Op.record uid r) = db := by
  have hnone : validateTx r = none := by
    unfold validateTx
    cases hp : parseKind r.type with
    | none => rfl
    | some k =>
      rcases h with h | h | h
      · have hf : decide (0 < r.amount) = false := by
          simp only [decide_eq_false_iff_not, not_lt]
          exact h
        simp [hf]
      · rw [hp] at h
        exact absurd h (by simp)
      · have hf : ((r.currency.getD "USD").length == 3) = false := by
          simpa using h
        simp [hf]
  have herr : recordTransaction uid r db = Except.error LedgerError.validationError := by
    unfold recordTransaction
    rw [hnone]
  exact ⟨herr, applyOp_record_error herr⟩

theorem claim_c5_witness :
    recordTransaction 7 ⟨"debit", -5, none, none, none⟩ demoDB
      = Except.error LedgerError.validationError :=
  (claim_c5_validation_error 7 ⟨"debit", -5, none, none, none⟩ demoDB
    (Or.inl (by decide))).1

/-- C8: the check-then-act sequence of `POST /transactions` is not
serialized: under the schedule `raceSched`, two concurrent
`recordTransaction(debit, 600)` calls against a wallet with balance 1000
and no frozen balance both pass the available-balance check and both
complete, recording two completed 600 debits while the stored balance
drops only to 400 — the claim that exactly one call can succeed fails on
the code. -/
theorem claim_c8_race_failing_run :
    raceResult.a = DebitPhase.ok ∧ raceResult.b = DebitPhase.ok
    ∧ balanceOf raceResult.db 1 = some 400
    ∧ raceResult.db.txns.map (fun t => (t.type, t.amount, t.status))
        = [(TxKind.debit, 600, TxStatus.completed),
           (TxKind.debit, 600, TxStatus.completed)] := by
  decide

/-- C7 counterexample: a successful transfer creates both legs with
`'completed'` bound as the status in the `INSERT` itself (lines 318 and
330), so a transaction row is created whose initial status is not
`pending`, contradicting the claim that every row is created in status
`pending`. -/
theorem claim_c7_counterexample :
    (transferFunds 7 "alice@x.com" ⟨"bob@x.com", 300, none, none⟩ demoDB).toOption.map
        (fun p => p.2.txns.map Txn.initialStatus)
      = some [TxStatus.completed, TxStatus.completed]
    ∧ TxStatus.completed ≠ TxStatus.pending := by
  decide

/-- C7 (amended): a row created by `recordTransaction` is inserted in
status `pending` and advanced once to `completed`; the two legs created
by `transferFunds` are inserted directly in status `completed`; in both
cases all previously existing transaction rows are left unchanged. -/
theorem claim_c7_amended_lifecycle (db : DB) (hwf : WF db) :
    (∀ uid r t nb db', recordTransaction uid r db = Except.ok (t, nb, db') →
      ∃ tn, db'.txns = db.txns ++ [tn] ∧ tn.initialStatus = TxStatus.pending
        ∧ tn.status = TxStatus.completed)
    ∧ (∀ uid se r res db', transferFunds uid se r db = Except.ok (res, db') →
      ∃ t1 t2, db'.txns = db.txns ++ [t1, t2]
        ∧ t1.initialStatus = TxStatus.completed ∧ t1.status = TxStatus.completed
        ∧ t2.initialStatus = TxStatus.completed ∧ t2.status = TxStatus.completed) := by
  constructor
  · intro uid r t nb db' hres
    obtain ⟨v, wallet, hv, hw, hcond, hnb, hdb', ht⟩ := record_ok_shape hres
    subst hdb'
    refine ⟨{ (db.insertTxn wallet.id uid v.type v.amount v.currency
      v.description v.reference TxStatus.pending).1 with status := TxStatus.completed },
      ?_, rfl, rfl⟩
    simp only [txns_notify, txns_completeTxn, txns_setBalance, txns_insertTxn,
      List.map_append]
    rw [completeTxn_map_fresh (fun t' ht' => Nat.ne_of_lt (hwf.2 t' ht'))]
    simp [id_insertTxn]
  · intro uid se r res db' hres
    obtain ⟨v, sw, ru, rcw, hv, hsw, hlt, hru, hrw, -, hdb'⟩ := transfer_ok_shape hres
    subst hdb'
    refine ⟨({ db with nextUuid := db.nextUuid + 1 }.insertTxn sw.id uid
        TxKind.transfer v.amount v.currency
        (some ("Transfer to " ++ v.recipientEmail))
        (some (mkUuid db.nextUuid)) TxStatus.completed).1,
      (({ db with nextUuid := db.nextUuid + 1 }.insertTxn sw.id uid
        TxKind.transfer v.amount v.currency
        (some ("Transfer to " ++ v.recipientEmail))
        (some (mkUuid db.nextUuid)) TxStatus.completed).2.insertTxn rcw.id ru.id
        TxKind.credit v.amount v.currency
        (some ("Transfer from " ++ se))
        (some (mkUuid db.nextUuid)) TxStatus.completed).1, ?_, rfl, rfl, rfl, rfl⟩
    simp only [txns_notify, txns_setBalance, txns_insertTxn, List.append_assoc,
      List.singleton_append]

theorem claim_c7_witness :
    (recordTransaction 7 ⟨"credit", 3, none, none, none⟩ tinyDB).toOption.map
        (fun p => p.2.2.txns.map (fun t => (t.initialStatus, t.status)))
      = some [(TxStatus.pending, TxStatus.completed)] := by
  cases hok : recordTransaction 7 ⟨"credit", 3, none, none, none⟩ tinyDB with
  | error e =>
    have h2 : (recordTransaction 7 ⟨"credit", 3, none, none, none⟩ tinyDB).toOption.isSome = true := by
      decide
    rw [hok] at h2
    simp [Except.toOption] at h2
  | ok p =>
    obtain ⟨t, nb, db'⟩ := p
    obtain ⟨tn, heq, hi, hs⟩ :=
      (claim_c7_amended_lifecycle tinyDB (by decide)).1 7 _ t nb db' hok
    simp [Except.toOption, heq, tinyDB, hi, hs]


/-- C6: the failure checks of `POST /transfer` fire in source order —
validation, sender wallet, sender balance (before the recipient is even
resolved), recipient user, recipient wallet — each with its typed error,
and any error leaves the state unchanged. -/
theorem claim_c6_transfer_error_order (db : DB) (uid : Nat) (se : String)
    (r : RawTransferReq) :
    (validateTransfer r = none →
      transferFunds uid se r db = Except.error LedgerError.validationError)
    ∧ (∀ v, validateTransfer r = some v → db.getWalletByUser uid = none →
      transferFunds uid se r db = Except.error LedgerError.senderWalletNotFound)
    ∧ (∀ v sw, validateTransfer r = some v → db.getWalletByUser uid = some sw →
      sw.balance - sw.frozenBalance < v.amount →
      transferFunds uid se r db
        = Except.error (LedgerError.insufficientBalance (sw.balance - sw.frozenBalance)))
    ∧ (∀ v sw, validateTransfer r = some v → db.getWalletByUser uid = some sw →
      ¬ sw.balance - sw.frozenBalance < v.amount →
      db.findRecipient v.recipientEmail = none →
      transferFunds uid se r db = Except.error LedgerError.recipientNotFound)
    ∧ (∀ v sw ru, validateTransfer r = some v → db.getWalletByUser uid = some sw →
      ¬ sw.balance - sw.frozenBalance < v.amount →
      db.findRecipient v.recipientEmail = some ru →
      db.getWalletByUser ru.id = none →
      transferFunds uid se r db = Except.error LedgerError.recipientWalletNotFound)
    ∧ (∀ e, transferFunds uid se r db = Except.error e →
      applyOp db (Op.xfer uid se r) = db) := by
  refine ⟨?_, ?_, ?_, ?_, ?_, fun e he => applyOp_xfer_error he⟩
  · intro hv
    unfold transferFunds
    rw [hv]
  · intro v hv hw
    unfold transferFunds
    rw [hv, hw]
  · intro v sw hv hw hlt
    unfold transferFunds
    rw [hv, hw]
    simp only []
    rw [if_pos (decide_eq_true hlt)]
  · intro v sw hv hw hge hn
    unfold transferFunds
    rw [hv, hw]
    simp only []
    rw [if_neg (by simpa using hge)]
    simp only [hn]
  · intro v sw ru hv hw hge hru hrw
    unfold transferFunds
    rw [hv, hw]
    simp only []
    rw [if_neg (by simpa using hge)]
    simp only [hru]
    rw [hrw]

theorem claim_c6_witness :
    transferFunds 7 "alice@x.com" ⟨"nobody@x.com", 5000, none, none⟩ demoDB
      = Except.error (LedgerError.insufficientBalance 1000) :=
  (claim_c6_transfer_error_order demoDB 7 "alice@x.com"
      ⟨"nobody@x.com", 5000, none, none⟩).2.2.1
    ⟨"nobody@x.com", 5000, "USD", none⟩ ⟨1, 7, "USD", 1000, 0⟩
    (by decide) (by decide) (by decide)


theorem find?_id_map_upd (l : List Wallet) (wid : Nat) (b : Int) (q : Nat) :
    (l.map (fun w => if w.id == wid then { w with balance := b } else w)).find?
        (fun w => w.id == q)
      = (l.find? (fun w => w.id == q)).map
          (fun w => if w.id == wid then { w with balance := b } else w) := by
  induction l with
  | nil => rfl
  | cons w l ih =>
    simp only [List.map_cons, List.find?_cons]
    rw [id_upd]
    cases hq : w.id == q with
    | true => rfl
    | false => exact ih

theorem find?_id_unique {l : List Wallet} (hn : (l.map Wallet.id).Nodup)
    {w0 : Wallet} (hm : w0 ∈ l) :
    l.find? (fun w => w.id == w0.id) = some w0 := by
  have hs : (l.find? (fun w => w.id == w0.id)).isSome := by
    rw [List.find?_isSome]
    exact ⟨w0, hm, by simp⟩
  obtain ⟨w1, hw1⟩ := Option.isSome_iff_exists.mp hs
  have hmem := List.mem_of_find?_eq_some hw1
  have hp := List.find?_some hw1
  have heq : w1 = w0 :=
    List.inj_on_of_nodup_map hn hmem hm (by simpa using hp)
  rw [hw1, heq]

/-- C2 counterexample: when the recipient email resolves to the sender,
the transfer completes, yet the sender's stored balance afterwards is its
balance before plus the amount (1000 + 300 = 1300), not minus
(1000 - 300 = 700): the recipient-side update overwrites the debit. -/
theorem claim_c2_counterexample :
    (transferFunds 7 "alice@x.com" ⟨"alice@x.com", 300, none, none⟩ demoDB).toOption.map
        (fun p => balanceOf p.2 1) = some (some 1300)
    ∧ (1300 : Int) ≠ 1000 - 300 := by
  decide

/-- C2 (amended): for every transfer that completes successfully and
whose sender and recipient wallets are distinct rows, the sender's
stored balance afterwards is its balance before minus the amount, the
recipient's is its balance before plus the amount, and the two created
legs both carry the shared correlation reference.  (When both resolve to
the same row — a self-transfer — the final balance is instead the
pre-read balance plus the amount.) -/
theorem claim_c2_transfer_balances (db : DB) (uid : Nat) (se : String)
    (r : RawTransferReq) (v : ValidTransfer) (sw rcw : Wallet) (ru : User)
    (res : TransferResult) (db' : DB)
    (hwf : WF db)
    (hv : validateTransfer r = some v)
    (hsw : db.getWalletByUser uid = some sw)
    (hru : db.findRecipient v.recipientEmail = some ru)
    (hrw : db.getWalletByUser ru.id = some rcw)
    (hne : sw.id ≠ rcw.id)
    (hok : transferFunds uid se r db = Except.ok (res, db')) :
    balanceOf db' sw.id = some (sw.balance - v.amount)
    ∧ balanceOf db' rcw.id = some (rcw.balance + v.amount)
    ∧ res.newBalance = sw.balance - v.amount
    ∧ ∃ t1 t2, db'.txns = db.txns ++ [t1, t2]
        ∧ t1.reference = some (mkUuid db.nextUuid)
        ∧ t2.reference = some (mkUuid db.nextUuid) := by
  obtain ⟨v2, sw2, ru2, rcw2, hv2, hsw2, hlt2, hru2, hrw2, hres2, hdb'⟩ :=
    transfer_ok_shape hok
  rw [hv] at hv2
  injection hv2 with hv2
  subst hv2
  rw [hsw] at hsw2
  injection hsw2 with hsw2
  subst hsw2
  rw [hru] at hru2
  injection hru2 with hru2
  subst hru2
  rw [hrw] at hrw2
  injection hrw2 with hrw2
  subst hrw2
  have hsm := getWalletByUser_mem hsw
  have hrm := getWalletByUser_mem hrw
  subst hdb'
  refine ⟨?_, ?_, by rw [hres2], ?_⟩
  · unfold balanceOf
    simp only [wallets_notify, wallets_setBalance, wallets_insertTxn]
    rw [find?_id_map_upd, find?_id_map_upd, find?_id_unique hwf.1 hsm]
    simp [hne]
  · unfold balanceOf
    simp only [wallets_notify, wallets_setBalance, wallets_insertTxn]
    rw [find?_id_map_upd, find?_id_map_upd, find?_id_unique hwf.1 hrm]
    simp [Ne.symm hne]
  · refine ⟨({ db with nextUuid := db.nextUuid + 1 }.insertTxn sw.id uid
        TxKind.transfer v.amount v.currency
        (some ("Transfer to " ++ v.recipientEmail))
        (some (mkUuid db.nextUuid)) TxStatus.completed).1,
      (({ db with nextUuid := db.nextUuid + 1 }.insertTxn sw.id uid
        TxKind.transfer v.amount v.currency
        (some ("Transfer to " ++ v.recipientEmail))
        (some (mkUuid db.nextUuid)) TxStatus.completed).2.insertTxn rcw.id ru.id
        TxKind.credit v.amount v.currency
        (some ("Transfer from " ++ se))
        (some (mkUuid db.nextUuid)) TxStatus.completed).1, ?_, rfl, rfl⟩
    simp only [txns_notify, txns_setBalance, txns_insertTxn, List.append_assoc,
      List.singleton_append]

theorem claim_c2_witness :
    (transferFunds 7 "alice@x.com" ⟨"bob@x.com", 300, none, none⟩ demoDB).toOption.map
        (fun p => (balanceOf p.2 1, balanceOf p.2 2,
          p.2.txns.map Txn.reference))
      = some (some 700, some 500, [some "uuid-1", some "uuid-1"]) := by
  cases hok : transferFunds 7 "alice@x.com" ⟨"bob@x.com", 300, none, none⟩ demoDB with
  | error e =>
    have h2 : (transferFunds 7 "alice@x.com" ⟨"bob@x.com", 300, none, none⟩
        demoDB).toOption.isSome = true := by decide
    rw [hok] at h2
    simp [Except.toOption] at h2
  | ok p =>
    obtain ⟨res, db'⟩ := p
    obtain ⟨hbs, hbr, -, t1, t2, heq, hr1, hr2⟩ :=
      claim_c2_transfer_balances demoDB 7 "alice@x.com" _
        ⟨"bob@x.com", 300, "USD", none⟩ ⟨1, 7, "USD", 1000, 0⟩
        ⟨2, 8, "USD", 200, 0⟩ ⟨8, "bob@x.com", true⟩ res db'
        (by decide) (by decide) (by decide) (by decide) (by decide)
        (by decide) hok
    simp only [Except.toOption, Option.map]
    rw [heq]
    simp [hbs, hbr, hr1, hr2, demoDB, mkUuid]
    decide

/-- C3: a transfer whose recipient email resolves to the caller's own
active user record, with the wallet present and enough available
balance, is accepted: two legs are created and the wallet's final stored
balance is the original balance plus the amount — the credit update,
computed from the stale pre-read balance, overwrites the debit. -/
theorem claim_c3_self_transfer_credits (db : DB) (uid : Nat) (se : String)
    (r : RawTransferReq) (v : ValidTransfer) (w : Wallet) (ru : User)
    (hwf : WF db)
    (hv : validateTransfer r = some v)
    (hsw : db.getWalletByUser uid = some w)
    (hru : db.findRecipient v.recipientEmail = some ru)
    (huid : ru.id = uid)
    (hge : ¬ w.balance - w.frozenBalance < v.amount) :
    ∃ res db', transferFunds uid se r db = Except.ok (res, db')
      ∧ db'.txns.length = db.txns.length + 2
      ∧ balanceOf db' w.id = some (w.balance + v.amount) := by
  have hok : transferFunds uid se r db
      = Except.ok (⟨mkUuid db.nextUuid, v.amount, v.currency, v.recipientEmail,
          w.balance - v.amount⟩,
        ((((({ db with nextUuid := db.nextUuid + 1 }.insertTxn w.id uid
          TxKind.transfer v.amount v.currency
          (some ("Transfer to " ++ v.recipientEmail))
          (some (mkUuid db.nextUuid)) TxStatus.completed).2.insertTxn w.id ru.id
          TxKind.credit v.amount v.currency
          (some ("Transfer from " ++ se))
          (some (mkUuid db.nextUuid)) TxStatus.completed).2.setBalance w.id
          (w.balance - v.amount)).setBalance w.id
          (w.balance + v.amount)).notify uid "Transfer Sent").notify ru.id
          "Transfer Received") := by
    unfold transferFunds
    rw [hv, hsw]
    simp only []
    rw [if_neg (by simpa using hge)]
    simp only [hru]
    rw [huid, hsw]
  refine ⟨_, _, hok, ?_, ?_⟩
  · simp
  · unfold balanceOf
    simp only [wallets_notify, wallets_setBalance, wallets_insertTxn]
    have hsm := getWalletByUser_mem hsw
    rw [find?_id_map_upd, find?_id_map_upd, find?_id_unique hwf.1 hsm]
    simp

theorem claim_c3_witness :
    (transferFunds 7 "alice@x.com" ⟨"alice@x.com", 300, none, none⟩ demoDB).toOption.map
        (fun p => (p.2.txns.length, balanceOf p.2 1)) = some (2, some 1300) := by
  obtain ⟨res, db', hok, hlen, hbal⟩ :=
    claim_c3_self_transfer_credits demoDB 7 "alice@x.com"
      ⟨"alice@x.com", 300, none, none⟩ ⟨"alice@x.com", 300, "USD", none⟩
      ⟨1, 7, "USD", 1000, 0⟩ ⟨7, "alice@x.com", true⟩
      (by decide) (by decide) (by decide) (by decide) (by decide) (by decide)
  rw [hok]
  simp [Except.toOption, hlen, hbal, demoDB]


theorem aggregate_eq (l : List Txn) (k : TxKind) :
    aggregate l k
      = if (l.filter (fun t => t.type == k)).isEmpty then none
        else some ⟨(l.filter (fun t => t.type == k)).length,
                   sumAmounts (l.filter (fun t => t.type == k))⟩ := by
  induction l with
  | nil => rfl
  | cons t l ih =>
    simp only [aggregate, List.filter_cons]
    cases hk : t.type == k with
    | false => simpa [hk] using ih
    | true =>
      rw [ih]
      cases hemp : (l.filter (fun t => t.type == k)).isEmpty with
      | true =>
        have : l.filter (fun t => t.type == k) = [] := by
          simpa [List.isEmpty_iff] using hemp
        simp [hemp, this, sumAmounts]
      | false =>
        simp only [hemp, Bool.false_eq_true, if_false, List.isEmpty_cons,
          if_true]
        simp [sumAmounts]
        omega

theorem totalOf_eq (m1 m2 : TxKind → Option KindAgg)
    (h : ∀ k, m1 k = m2 k) : totalOf m1 = totalOf m2 := by
  unfold totalOf
  simp [h]

theorem filter_kinds_length (l : List Txn) :
    (l.filter fun t => t.type == TxKind.credit).length
      + (l.filter fun t => t.type == TxKind.debit).length
      + (l.filter fun t => t.type == TxKind.transfer).length
      + (l.filter fun t => t.type == TxKind.payment).length = l.length := by
  induction l with
  | nil => rfl
  | cons t l ih =>
    cases ht : t.type <;> simp [List.filter_cons, ht] <;> omega

theorem totalOf_aggregate (l : List Txn) : totalOf (aggregate l) = l.length := by
  have hc : ∀ k, (match aggregate l k with | some a => a.count | none => 0)
      = (l.filter fun t => t.type == k).length := by
    intro k
    rw [aggregate_eq]
    cases hemp : (l.filter fun t => t.type == k).isEmpty with
    | true =>
      have hnil : l.filter (fun t => t.type == k) = [] := by
        simpa [List.isEmpty_iff] using hemp
      simp [hnil]
    | false => simp [hemp]
  show 0 + (match aggregate l TxKind.credit with | some a => a.count | none => 0)
    + (match aggregate l TxKind.debit with | some a => a.count | none => 0)
    + (match aggregate l TxKind.transfer with | some a => a.count | none => 0)
    + (match aggregate l TxKind.payment with | some a => a.count | none => 0)
    = l.length
  rw [hc, hc, hc, hc, ← filter_kinds_length l]
  omega

theorem completedTxns_of_all_completed {db : DB} {uid : Nat}
    (hall : ∀ t ∈ db.txns, t.status = TxStatus.completed) :
    completedTxns db uid = userTxns db uid := by
  unfold completedTxns userTxns
  apply List.filter_congr
  intro t ht
  simp [hall t ht]

/-- C9: `getStats` fails exactly when the user has no wallet (with
`NotFound`); otherwise it returns the wallet's balance, frozen balance
and computed available balance, the total transaction count, per-kind
count and sum over completed transactions only, and the five most recent
transactions in descending creation order.  (It performs only reads: its
type carries no output state.)  The hypothesis that all stored rows are
completed holds in every state the sequential operations produce. -/
theorem claim_c9_stats_view (db : DB) (uid : Nat)
    (hall : ∀ t ∈ db.txns, t.status = TxStatus.completed) :
    (db.getWalletByUser uid = none ↔
      getStats uid db = Except.error LedgerError.walletNotFound)
    ∧ (∀ e, getStats uid db = Except.error e → e = LedgerError.walletNotFound)
    ∧ (∀ w, db.getWalletByUser uid = some w →
      ∃ s, getStats uid db = Except.ok s
        ∧ s.balance = w.balance
        ∧ s.frozenBalance = w.frozenBalance
        ∧ s.availableBalance = w.balance - w.frozenBalance
        ∧ s.currency = w.currency
        ∧ s.totalTransactions = (userTxns db uid).length
        ∧ (∀ k, s.perKind k
            = if ((completedTxns db uid).filter (fun t => t.type == k)).isEmpty then none
              else some ⟨((completedTxns db uid).filter (fun t => t.type == k)).length,
                sumAmounts ((completedTxns db uid).filter (fun t => t.type == k))⟩)
        ∧ List.Sorted recentLE s.recent
        ∧ (∀ t ∈ s.recent, t ∈ userTxns db uid)
        ∧ s.recent.length = min 5 (userTxns db uid).length
        ∧ (∀ t ∈ userTxns db uid, t ∉ s.recent →
            ∀ u ∈ s.recent, t.createdAt ≤ u.createdAt)) := by
  refine ⟨⟨fun hn => by unfold getStats; rw [hn], fun he => ?_⟩, fun e he => ?_, fun w hw => ?_⟩
  · unfold getStats at he
    cases hn : db.getWalletByUser uid with
    | none => rfl
    | some w => rw [hn] at he; exact absurd he (by simp)
  · unfold getStats at he
    cases hn : db.getWalletByUser uid with
    | none => rw [hn] at he; injection he with he; exact he.symm
    | some w => rw [hn] at he; exact absurd he (by simp)
  · have hok : getStats uid db = Except.ok
        { balance := w.balance, frozenBalance := w.frozenBalance,
          availableBalance := w.balance - w.frozenBalance,
          currency := w.currency,
          totalTransactions := totalOf (aggregate (completedTxns db uid)),
          perKind := aggregate (completedTxns db uid),
          recent := ((userTxns db uid).insertionSort recentLE).take 5 } := by
      unfold getStats
      rw [hw]
    have hsorted : List.Sorted recentLE ((userTxns db uid).insertionSort recentLE) :=
      List.sorted_insertionSort recentLE (userTxns db uid)
    have hperm := List.perm_insertionSort recentLE (userTxns db uid)
    refine ⟨_, hok, rfl, rfl, rfl, rfl, ?_, fun k => aggregate_eq _ k, ?_, ?_, ?_, ?_⟩
    · show totalOf (aggregate (completedTxns db uid)) = _
      rw [totalOf_aggregate, completedTxns_of_all_completed hall]
    · exact List.Pairwise.sublist (List.take_sublist 5 _) hsorted
    · intro t ht
      exact hperm.mem_iff.mp (List.mem_of_mem_take ht)
    · show (((userTxns db uid).insertionSort recentLE).take 5).length = _
      rw [List.length_take, hperm.length_eq]
    · intro t htl htn u hu
      have hts : t ∈ (userTxns db uid).insertionSort recentLE :=
        hperm.mem_iff.mpr htl
      rw [← List.take_append_drop 5 ((userTxns db uid).insertionSort recentLE)]
        at hts
      rw [List.mem_append] at hts
      have htd : t ∈ ((userTxns db uid).insertionSort recentLE).drop 5 := by
        cases hts with
        | inl h => exact absurd h htn
        | inr h => exact h
      have hs2 := hsorted
      rw [← List.take_append_drop 5 ((userTxns db uid).insertionSort recentLE)]
        at hs2
      unfold List.Sorted at hs2
      rw [List.pairwise_append] at hs2
      exact hs2.2.2 u hu t htd


theorem claim_c9_witness :
    (getStats 7 statsDB).toOption.map
        (fun s => (s.balance, s.availableBalance, s.totalTransactions,
          s.perKind TxKind.credit, s.perKind TxKind.debit,
          s.perKind TxKind.transfer))
      = some (1200, 1100, 2, some ⟨1, 500⟩, some ⟨1, 300⟩, none) := by
  obtain ⟨-, -, h3⟩ := claim_c9_stats_view statsDB 7 (by decide)
  obtain ⟨s, hok, hb, hf, hav, hcur, htot, hper, -, -, -, -⟩ :=
    h3 ⟨1, 7, "USD", 1200, 100⟩ (by decide)
  rw [hok]
  simp only [Except.toOption, Option.map]
  rw [hb, hav, htot, hper TxKind.credit, hper TxKind.debit, hper TxKind.transfer]
  rfl


theorem validateTx_currency {r : RawTxReq} {v : ValidTx}
    (h : validateTx r = some v) : v.currency = r.currency.getD "USD" := by
  unfold validateTx at h
  split at h
  · exact absurd h (by simp)
  · split at h
    · injection h with h
      subst h
      rfl
    · exact absurd h (by simp)

theorem validateTransfer_currency {r : RawTransferReq} {v : ValidTransfer}
    (h : validateTransfer r = some v) : v.currency = r.currency.getD "USD" := by
  unfold validateTransfer at h
  split at h
  · injection h with h
    subst h
    rfl
  · exact absurd h (by simp)

theorem find?_userId_map_relabel (l : List Wallet) (f : Nat → String) (uid : Nat) :
    (l.map (fun w => { w with currency := f w.id })).find? (fun w => w.userId == uid)
      = (l.find? (fun w => w.userId == uid)).map (fun w => { w with currency := f w.id }) := by
  induction l with
  | nil => rfl
  | cons w l ih =>
    simp only [List.map_cons, List.find?_cons]
    cases hq : w.userId == uid with
    | true => rfl
    | false => exact ih

theorem getWalletByUser_relabelW (f : Nat → String) (db : DB) (uid : Nat) :
    (relabelW f db).getWalletByUser uid
      = (db.getWalletByUser uid).map (fun w => { w with currency := f w.id }) :=
  find?_userId_map_relabel db.wallets f uid

theorem findRecipient_relabelW (f : Nat → String) (db : DB) (em : String) :
    (relabelW f db).findRecipient em = db.findRecipient em := rfl

theorem relabelW_setBalance (f : Nat → String) (db : DB) (wid : Nat) (b : Int) :
    (relabelW f db).setBalance wid b = relabelW f (db.setBalance wid b) := by
  unfold relabelW DB.setBalance
  simp only [List.map_map]
  have hfun : ((fun w => if w.id == wid then { w with balance := b } else w)
        ∘ (fun w : Wallet => { w with currency := f w.id }))
      = ((fun w : Wallet => { w with currency := f w.id })
        ∘ (fun w => if w.id == wid then { w with balance := b } else w)) := by
    funext w
    cases h : w.id == wid with
    | true => simp [Function.comp, h]
    | false => simp [Function.comp, h]
  rw [hfun]

theorem relabelW_insertTxn_snd (f : Nat → String) (db : DB) (wid uid : Nat)
    (k : TxKind) (a : Int) (c : String) (d ref : Option String) (st : TxStatus) :
    ((relabelW f db).insertTxn wid uid k a c d ref st).2
      = relabelW f ((db.insertTxn wid uid k a c d ref st).2) := rfl

theorem relabelW_completeTxn (f : Nat → String) (db : DB) (tid : Nat) :
    (relabelW f db).completeTxn tid = relabelW f (db.completeTxn tid) := rfl

theorem relabelW_notify (f : Nat → String) (db : DB) (uid : Nat) (t : String) :
    (relabelW f db).notify uid t = relabelW f (db.notify uid t) := rfl

theorem record_error_shape {uid : Nat} {r : RawTxReq} {db : DB} {e : LedgerError}
    (hres : recordTransaction uid r db = Except.error e) :
    (validateTx r = none ∧ e = LedgerError.validationError)
    ∨ (∃ v, validateTx r = some v ∧ db.getWalletByUser uid = none
        ∧ e = LedgerError.walletNotFound)
    ∨ (∃ v w, validateTx r = some v ∧ db.getWalletByUser uid = some w
        ∧ (isDebitLike v.type && decide (w.balance - w.frozenBalance < v.amount)) = true
        ∧ e = LedgerError.insufficientBalance (w.balance - w.frozenBalance)) := by
  unfold recordTransaction at hres
  split at hres
  · rename_i hv
    injection hres with hres
    exact Or.inl ⟨hv, hres.symm⟩
  · rename_i v hv
    split at hres
    · rename_i hw
      injection hres with hres
      exact Or.inr (Or.inl ⟨v, hv, hw, hres.symm⟩)
    · rename_i w hw
      simp only [] at hres
      split at hres
      · rename_i hcond
        injection hres with hres
        exact Or.inr (Or.inr ⟨v, w, hv, hw, hcond, hres.symm⟩)
      · exact absurd hres (by simp)

theorem transfer_error_shape {uid : Nat} {se : String} {r : RawTransferReq}
    {db : DB} {e : LedgerError}
    (hres : transferFunds uid se r db = Except.error e) :
    (validateTransfer r = none ∧ e = LedgerError.validationError)
    ∨ (∃ v, validateTransfer r = some v ∧ db.getWalletByUser uid = none
        ∧ e = LedgerError.senderWalletNotFound)
    ∨ (∃ v sw, validateTransfer r = some v ∧ db.getWalletByUser uid = some sw
        ∧ decide (sw.balance - sw.frozenBalance < v.amount) = true
        ∧ e = LedgerError.insufficientBalance (sw.balance - sw.frozenBalance))
    ∨ (∃ v sw, validateTransfer r = some v ∧ db.getWalletByUser uid = some sw
        ∧ decide (sw.balance - sw.frozenBalance < v.amount) = false
        ∧ db.findRecipient v.recipientEmail = none
        ∧ e = LedgerError.recipientNotFound)
    ∨ (∃ v sw ru, validateTransfer r = some v ∧ db.getWalletByUser uid = some sw
        ∧ decide (sw.balance - sw.frozenBalance < v.amount) = false
        ∧ db.findRecipient v.recipientEmail = some ru
        ∧ db.getWalletByUser ru.id = none
        ∧ e = LedgerError.recipientWalletNotFound) := by
  unfold transferFunds at hres
  split at hres
  · rename_i hv
    injection hres with hres
    exact Or.inl ⟨hv, hres.symm⟩
  · rename_i v hv
    split at hres
    · rename_i hw
      injection hres with hres
      exact Or.inr (Or.inl ⟨v, hv, hw, hres.symm⟩)
    · rename_i sw hw
      simp only [] at hres
      split at hres
      · rename_i hcond
        injection hres with hres
        exact Or.inr (Or.inr (Or.inl ⟨v, sw, hv, hw, hcond, hres.symm⟩))
      · rename_i hcond
        rw [Bool.not_eq_true] at hcond
        split at hres
        · rename_i hru
          injection hres with hres
          exact Or.inr (Or.inr (Or.inr (Or.inl ⟨v, sw, hv, hw, hcond, hru, hres.symm⟩)))
        · rename_i ru hru
          split at hres
          · rename_i hrw
            injection hres with hres
            exact Or.inr (Or.inr (Or.inr (Or.inr ⟨v, sw, ru, hv, hw, hcond, hru, hrw, hres.symm⟩)))
          · exact absurd hres (by simp)


/-- C10: neither mutating route ever compares the request's currency with
the wallet's stored currency.  Relabelling every wallet's currency
arbitrarily changes neither the outcome (errors, returned values,
balances written: the wallet is found by user id alone) nor the rows
written, and the created rows carry the request currency (defaulted to
`'USD'`). -/
theorem claim_c10_wallet_currency_ignored (db : DB) (uid : Nat) (se : String)
    (rt : RawTxReq) (rx : RawTransferReq) (f : Nat → String) (hwf : WF db) :
    (∀ e, recordTransaction uid rt db = Except.error e →
      recordTransaction uid rt (relabelW f db) = Except.error e)
    ∧ (∀ t nb db', recordTransaction uid rt db = Except.ok (t, nb, db') →
      recordTransaction uid rt (relabelW f db) = Except.ok (t, nb, relabelW f db'))
    ∧ (∀ e, transferFunds uid se rx db = Except.error e →
      transferFunds uid se rx (relabelW f db) = Except.error e)
    ∧ (∀ res db', transferFunds uid se rx db = Except.ok (res, db') →
      transferFunds uid se rx (relabelW f db) = Except.ok (res, relabelW f db'))
    ∧ (∀ t nb db', recordTransaction uid rt db = Except.ok (t, nb, db') →
      ∀ tn ∈ db'.txns, tn ∈ db.txns ∨ tn.currency = rt.currency.getD "USD")
    ∧ (∀ res db', transferFunds uid se rx db = Except.ok (res, db') →
      ∀ tn ∈ db'.txns, tn ∈ db.txns ∨ tn.currency = rx.currency.getD "USD") := by
  refine ⟨?_, ?_, ?_, ?_, ?_, ?_⟩
  · intro e he
    rcases record_error_shape he with ⟨hv, rfl⟩ | ⟨v, hv, hw, rfl⟩ | ⟨v, w, hv, hw, hcond, rfl⟩
    · unfold recordTransaction
      rw [hv]
    · unfold recordTransaction
      rw [hv, getWalletByUser_relabelW, hw]
      rfl
    · unfold recordTransaction
      rw [hv, getWalletByUser_relabelW, hw]
      simp only [Option.map_some']
      rw [if_pos hcond]
  · intro t nb db' hres
    obtain ⟨v, w, hv, hw, hcond, hnb, hdb', ht⟩ := record_ok_shape hres
    subst hdb' hnb ht
    unfold recordTransaction
    rw [hv, getWalletByUser_relabelW, hw]
    simp only [Option.map_some']
    rw [if_neg (by rw [hcond]; exact Bool.false_ne_true)]
    rw [relabelW_insertTxn_snd, relabelW_setBalance, relabelW_completeTxn,
      relabelW_notify]
    rfl
  · intro e he
    rcases transfer_error_shape he with ⟨hv, rfl⟩ | ⟨v, hv, hw, rfl⟩
      | ⟨v, sw, hv, hw, hcond, rfl⟩ | ⟨v, sw, hv, hw, hcond, hru, rfl⟩
      | ⟨v, sw, ru, hv, hw, hcond, hru, hrw, rfl⟩
    · unfold transferFunds
      rw [hv]
    · unfold transferFunds
      rw [hv, getWalletByUser_relabelW, hw]
      rfl
    · unfold transferFunds
      rw [hv, getWalletByUser_relabelW, hw]
      simp only [Option.map_some']
      rw [if_pos hcond]
    · unfold transferFunds
      rw [hv, getWalletByUser_relabelW, hw]
      simp only [Option.map_some']
      rw [if_neg (by rw [hcond]; exact Bool.false_ne_true)]
      rw [findRecipient_relabelW]
      simp only [hru]
    · unfold transferFunds
      rw [hv, getWalletByUser_relabelW, hw]
      simp only [Option.map_some']
      rw [if_neg (by rw [hcond]; exact Bool.false_ne_true)]
      rw [findRecipient_relabelW]
      simp only [hru]
      rw [getWalletByUser_relabelW, hrw]
      rfl
  · intro res db' hres
    obtain ⟨v, sw, ru, rcw, hv, hsw, hcond, hru, hrw, hres2, hdb'⟩ :=
      transfer_ok_shape hres
    subst hdb' hres2
    unfold transferFunds
    rw [hv, getWalletByUser_relabelW, hsw]
    simp only [Option.map_some']
    rw [if_neg (by rw [hcond]; exact Bool.false_ne_true)]
    rw [findRecipient_relabelW]
    simp only [hru]
    rw [getWalletByUser_relabelW, hrw]
    simp only [Option.map_some']
    rw [show (relabelW f db).nextUuid = db.nextUuid from rfl]
    rw [show ({ relabelW f db with nextUuid := db.nextUuid + 1 } : DB)
      = relabelW f { db with nextUuid := db.nextUuid + 1 } from rfl]
    rw [relabelW_insertTxn_snd, relabelW_insertTxn_snd, relabelW_setBalance,
      relabelW_setBalance, relabelW_notify, relabelW_notify]
  · intro t nb db' hres tn htn
    obtain ⟨v, w, hv, hw, hcond, hnb, hdb', ht⟩ := record_ok_shape hres
    subst hdb'
    simp only [txns_notify, txns_completeTxn, txns_setBalance, txns_insertTxn,
      List.map_append, List.mem_append] at htn
    rw [completeTxn_map_fresh (fun t' ht' => Nat.ne_of_lt (hwf.2 t' ht'))] at htn
    cases htn with
    | inl h => exact Or.inl h
    | inr h =>
      right
      simp only [List.map_cons, List.map_nil, List.mem_singleton] at h
      subst h
      have : (if ((db.insertTxn w.id uid v.type v.amount v.currency
          v.description v.reference TxStatus.pending).1.id == db.nextTx)
          then { (db.insertTxn w.id uid v.type v.amount v.currency
            v.description v.reference TxStatus.pending).1 with
              status := TxStatus.completed }
          else (db.insertTxn w.id uid v.type v.amount v.currency
            v.description v.reference TxStatus.pending).1).currency
          = v.currency := by
        cases hb : ((db.insertTxn w.id uid v.type v.amount v.currency
            v.description v.reference TxStatus.pending).1.id == db.nextTx)
          <;> simp [hb, DB.insertTxn]
      rw [this]
      exact validateTx_currency hv
  · intro res db' hres tn htn
    obtain ⟨v, sw, ru, rcw, hv, hsw, hcond, hru, hrw, hres2, hdb'⟩ :=
      transfer_ok_shape hres
    subst hdb'
    simp only [txns_notify, txns_setBalance, txns_insertTxn, List.append_assoc,
      List.singleton_append, List.mem_append, List.mem_cons,
      List.mem_singleton, List.not_mem_nil, or_false] at htn
    have hc := validateTransfer_currency hv
    rcases htn with h | h | h
    · exact Or.inl h
    · subst h
      exact Or.inr hc
    · subst h
      exact Or.inr hc

theorem claim_c10_witness :
    recordTransaction 7 ⟨"credit", 3, none, none, none⟩
        (relabelW (fun _ => "EUR") tinyDB)
      = Except.map (fun p => (p.1, p.2.1, relabelW (fun _ => "EUR") p.2.2))
          (recordTransaction 7 ⟨"credit", 3, none, none, none⟩ tinyDB)
    ∧ transferFunds 7 "alice@x.com" ⟨"bob@x.com", 300, none, none⟩
        (relabelW (fun _ => "JPY") demoDB)
      = Except.map (fun p => (p.1, relabelW (fun _ => "JPY") p.2))
          (transferFunds 7 "alice@x.com" ⟨"bob@x.com", 300, none, none⟩ demoDB) := by
  constructor
  · cases hok : recordTransaction 7 ⟨"credit", 3, none, none, none⟩ tinyDB with
    | error e =>
      have h2 : (recordTransaction 7 ⟨"credit", 3, none, none, none⟩
          tinyDB).toOption.isSome = true := by decide
      rw [hok] at h2
      simp [Except.toOption] at h2
    | ok p =>
      obtain ⟨t, nb, db'⟩ := p
      have h := (claim_c10_wallet_currency_ignored tinyDB 7 "x"
        ⟨"credit", 3, none, none, none⟩ ⟨"b@x.com", 1, none, none⟩
        (fun _ => "EUR") (by decide)).2.1 t nb db' hok
      rw [h]
      rfl
  · cases hok : transferFunds 7 "alice@x.com" ⟨"bob@x.com", 300, none, none⟩ demoDB with
    | error e =>
      have h2 : (transferFunds 7 "alice@x.com" ⟨"bob@x.com", 300, none, none⟩
          demoDB).toOption.isSome = true := by decide
      rw [hok] at h2
      simp [Except.toOption] at h2
    | ok p =>
      obtain ⟨res, db'⟩ := p
      have h := (claim_c10_wallet_currency_ignored demoDB 7 "alice@x.com"
        ⟨"credit", 3, none, none, none⟩ ⟨"bob@x.com", 300, none, none⟩
        (fun _ => "JPY") (by decide)).2.2.2.1 res db' hok
      rw [h]
      rfl

end TradeBridge
